import Mathlib

/-!
Shallow embedding of the go-mpris client library (package mpris) and proofs
about its operations.

Modelling conventions:
* A Go `any` (interface) value decoded from the bus is a `GoValue`; a nil
  interface is `GoValue.gNil`.  A `dbus.Variant` is identified with the value
  it carries (`Variant{}` with a nil payload is `gNil`).
* Go `(T, error)` returns become pairs `T × Option GoError`; a remote
  operation additionally reports the list of remote calls it issued
  (`GoRet`).
* `time.Duration` is an `Int` counting nanoseconds; int64 overflow is
  modelled explicitly by `int64wrap` at the one place the code multiplies.
* float64 values are never computed with in this library (they are only
  passed through), so they are abstracted as rationals.
* The bus transport (package godbus/dbus) is modelled by an `Env` that
  deterministically answers each remote call.
-/

set_option maxRecDepth 100000

namespace Mpris

/-- Dynamically typed value decoded from the bus, the model of a Go `any`
payload.  `gNil` is the nil interface; `gDict` is a `map[string]dbus.Variant`
rendered as an association list, each variant identified with its carried
value (nil payload rendered as `gNil`). -/
inductive GoValue where
  | gNil
  | gBool (b : Bool)
  | gInt (n : Int)
  | gFloat (q : Rat)
  | gString (s : String)
  | gObjectPath (p : String)
  | gStringList (l : List String)
  | gDict (entries : List (String × GoValue))

/-- Structured rendering of the error values the library builds with
`fmt.Errorf`.  Each constructor corresponds to one `fmt.Errorf` site (the
wrapped cause models the `%w` verb); `transport` stands for errors produced
by the bus library itself. -/
inductive GoError where
  | transport (msg : String)
  | getPropertyFailed (iface property : String) (cause : GoError)
  | storeFailed (iface property : String) (cause : GoError)
  | nilValue (iface property : String)
  | castFailed (iface property : String) (val : GoValue) (cause : GoError)
  | unableToCast (val : GoValue) (target : String)
  | metadataMissing (key : String)
  | metadataCastFailed (val : GoValue) (key : String) (cause : GoError)

/-- Constant `BaseInterface` from mpris.go. -/
def BaseInterface : String := "org.mpris.MediaPlayer2"

/-- Constant `PlayerInterface` from mpris.go. -/
def PlayerInterface : String := "org.mpris.MediaPlayer2.Player"

/-- Constant `getPropertyMethod` from mpris.go. -/
def getPropertyMethod : String := "org.freedesktop.DBus.Properties.Get"

/-- Constant `dbusObjectPath` from mpris.go. -/
def dbusObjectPath : String := "/org/mpris/MediaPlayer2"

/-- Wraps an unbounded integer to the int64 it denotes under two's
complement, the explicit model of Go int64 overflow. -/
def int64wrap (n : Int) : Int := (n + 2 ^ 63) % 2 ^ 64 - 2 ^ 63

/-- Models `time.Duration.Microseconds()` from the Go standard library:
`int64(d) / 1e3`, integer division truncating toward zero (durations are
nanosecond counts). -/
def durationMicroseconds (d : Int) : Int := Int.tdiv d 1000

/-- Models the Go expression `time.Duration(micro) * time.Microsecond`: the
product `micro * 1000` computed in int64 arithmetic (wrapping on overflow),
yielding a nanosecond count. -/
def microsecondsToDuration (micro : Int) : Int := int64wrap (micro * 1000)

/-- Models `strconv.ParseBool` from the Go standard library: accepts exactly
the listed strings, any other input is an error (rendered as an
`unableToCast` of the string). -/
def parseBool (s : String) : Bool × Option GoError :=
  if s = "1" ∨ s = "t" ∨ s = "T" ∨ s = "true" ∨ s = "TRUE" ∨ s = "True" then
    (true, none)
  else if s = "0" ∨ s = "f" ∨ s = "F" ∨ s = "false" ∨ s = "FALSE" ∨ s = "False" then
    (false, none)
  else
    (false, some (.unableToCast (.gString s) "bool"))

/-- Models `cast.ToBoolE` from the external dependency spf13/cast, restricted
to the value kinds of this model: bool passes through, nil is false, integers
compare against zero, strings go through `strconv.ParseBool`, everything else
fails returning the zero value. -/
def ToBoolE : GoValue → Bool × Option GoError
  | .gBool b => (b, none)
  | .gNil => (false, none)
  | .gInt n => (n != 0, none)
  | .gString s => parseBool s
  | v => (false, some (.unableToCast v "bool"))

/-- Models `cast.ToStringE` from the external dependency spf13/cast,
restricted to the value kinds of this model: strings pass through, bools and
integers are formatted, nil is the empty string.  Floats are formatted with
Lean's rational printer (an approximation of `strconv.FormatFloat`, never
exercised by the claims).  `dbus.ObjectPath` implements neither
`fmt.Stringer` nor `error`, so it falls to the failing default case, as do
slices and maps. -/
def ToStringE : GoValue → String × Option GoError
  | .gString s => (s, none)
  | .gBool b => (if b then "true" else "false", none)
  | .gInt n => (toString n, none)
  | .gFloat q => (toString q, none)
  | .gNil => ("", none)
  | v => ("", some (.unableToCast v "string"))

/-- Models `cast.ToInt64E` from the external dependency spf13/cast,
restricted to the value kinds of this model: integers pass through, bools
become 0/1, nil is 0, floats truncate toward zero, strings are parsed as
decimal integers (an approximation of `strconv.ParseInt` with base 0, which
additionally accepts prefixed radices — never exercised by the claims).
Slices, maps and object paths fail returning the zero value. -/
def ToInt64E : GoValue → Int × Option GoError
  | .gInt n => (n, none)
  | .gBool b => (if b then 1 else 0, none)
  | .gNil => (0, none)
  | .gFloat q => (if q < 0 then ⌈q⌉ else ⌊q⌋, none)
  | .gString s =>
    match s.toInt? with
    | some n => (n, none)
    | none => (0, some (.unableToCast (.gString s) "int64"))
  | v => (0, some (.unableToCast v "int64"))

/-- Models `cast.ToFloat64E` from the external dependency spf13/cast,
restricted to the value kinds of this model (numeric strings are omitted;
never exercised by the claims). -/
def ToFloat64E : GoValue → Rat × Option GoError
  | .gFloat q => (q, none)
  | .gInt n => ((n : Rat), none)
  | .gBool b => (if b then 1 else 0, none)
  | .gNil => (0, none)
  | v => (0, some (.unableToCast v "float64"))

/-- Models `strings.Fields` from the Go standard library: splits around runs
of whitespace. -/
def fields (s : String) : List String :=
  (s.split Char.isWhitespace).filter (fun t => t != "")

/-- Models `cast.ToStringSliceE` from the external dependency spf13/cast,
restricted to the value kinds of this model: string slices pass through, a
single string is split into fields, nil fails, and any other non-nil value
falls to the `interface{}` case which stringifies it via `ToStringE`
(failing, with the zero value, when that cast fails). -/
def ToStringSliceE (v : GoValue) : List String × Option GoError :=
  match v with
  | .gStringList l => (l, none)
  | .gString s => (fields s, none)
  | .gNil => ([], some (.unableToCast .gNil "[]string"))
  | v =>
    match ToStringE v with
    | (str, none) => ([str], none)
    | (_, some _) => ([], some (.unableToCast v "[]string"))

/-- One argument of a remote call, as marshalled by this library. -/
inductive CallArg where
  | aString (s : String)
  | aInt (n : Int)
  | aObjectPath (p : String)
deriving DecidableEq

/-- A remote call issued through `obj.Call`: the fully qualified method name
and its arguments (the always-zero flags argument is omitted). -/
structure CallRec where
  method : String
  args : List CallArg
deriving DecidableEq

/-- What the bus gives back for one remote call: the transport error of the
call itself (`Call(...).Err`) and the outcome of storing the single reply
value into a variant (`call.Store(&result)`). -/
structure Reply where
  callErr : Option GoError
  stored : Except GoError GoValue

/-- Deterministic model of the remote world a `Player` talks to: an answer
for every remote call, the outcome of the bus-wide `ListNames` call
(`names, storeErr`), and the outcome of `AddMatchSignal`. -/
structure Env where
  reply : String → List CallArg → Reply
  listNames : List String × Option GoError
  addMatchSignalErr : Option GoError

/-- Result of a Go function returning `(value, error)` together with the
remote calls it issued, in order. -/
structure GoRet (β : Type) where
  val : β
  err : Option GoError
  calls : List CallRec

/-- Embeds `Player.GetProperty` (properties file): issues a
`Properties.Get` call, wraps a transport error, wraps a store error,
otherwise yields the stored variant. -/
def GetProperty (env : Env) (iface property : String) : GoRet GoValue :=
  let c : CallRec := ⟨getPropertyMethod, [.aString iface, .aString property]⟩
  let rep := env.reply c.method c.args
  match rep.callErr with
  | some e => ⟨.gNil, some (.getPropertyFailed iface property e), [c]⟩
  | none =>
    match rep.stored with
    | .error e => ⟨.gNil, some (.storeFailed iface property e), [c]⟩
    | .ok v => ⟨v, none, [c]⟩

/-- Embeds `getPropertyCast` (properties file): get the property, fail on a
nil variant value, otherwise run the caster, wrapping its error with the
offending raw value; every error path returns the zero value (`var v T`,
modelled by `default`). -/
def getPropertyCast {α : Type} [Inhabited α] (env : Env) (iface property : String)
    (caster : GoValue → α × Option GoError) : GoRet α :=
  let z : α := default
  let g := GetProperty env iface property
  match g.err with
  | some e => ⟨z, some e, g.calls⟩
  | none =>
    match g.val with
    | .gNil => ⟨z, some (.nilValue iface property), g.calls⟩
    | v =>
      match caster v with
      | (_, some e) => ⟨z, some (.castFailed iface property v e), g.calls⟩
      | (result, none) => ⟨result, none, g.calls⟩

/-- Embeds `getPlayerPropertyCast` (properties file). -/
def getPlayerPropertyCast {α : Type} [Inhabited α] (env : Env) (property : String)
    (caster : GoValue → α × Option GoError) : GoRet α :=
  getPropertyCast env PlayerInterface property caster

/-- The `Metadata` map type (`map[string]dbus.Variant`) as an association
list; each variant is identified with its carried value. -/
abbrev Metadata := List (String × GoValue)

/-- Embeds `Metadata.Get` (player.go): error when the key is absent or the
variant value is nil, otherwise the carried value.  (The Go version returns
the variant itself alongside the error; no caller reads it, and here the
failing component is rendered as `gNil`.) -/
def Metadata.Get (m : Metadata) (key : String) : GoValue × Option GoError :=
  match m.lookup key with
  | none => (.gNil, some (.metadataMissing key))
  | some v =>
    match v with
    | .gNil => (.gNil, some (.metadataMissing key))
    | v => (v, none)

/-- The inline caster `GetMetadata` passes to `getPlayerPropertyCast`: a type
assertion to `map[string]dbus.Variant`, yielding an empty map and an error
when it does not apply. -/
def metadataCaster : GoValue → Metadata × Option GoError
  | .gDict entries => (entries, none)
  | a => ([], some (.unableToCast a "map[string]dbus.Variant"))

/-- Embeds `Player.GetMetadata` (player.go). -/
def GetMetadata (env : Env) : GoRet Metadata :=
  getPlayerPropertyCast env "Metadata" metadataCaster

/-- Embeds `getMetadataCast` (properties file): fetch the metadata, look the
key up, then cast, wrapping a caster error with the offending value; note the
cast-error branch returns the caster's value (`return v, fmt.Errorf(...)`),
not the freshly declared zero value. -/
def getMetadataCast {α : Type} [Inhabited α] (env : Env) (key : String)
    (caster : GoValue → α × Option GoError) : GoRet α :=
  let z : α := default
  let m := GetMetadata env
  match m.err with
  | some e => ⟨z, some e, m.calls⟩
  | none =>
    match Metadata.Get m.val key with
    | (_, some e) => ⟨z, some e, m.calls⟩
    | (val, none) =>
      match caster val with
      | (v, some e) => ⟨v, some (.metadataCastFailed val key e), m.calls⟩
      | (v, none) => ⟨v, none, m.calls⟩

/-- Embeds `Player.GetPlaybackStatus` (player.go); the `PlaybackStatus`
string type is identified with `String`. -/
def GetPlaybackStatus (env : Env) : GoRet String :=
  getPlayerPropertyCast env "PlaybackStatus" ToStringE

/-- Embeds `Player.GetLoopStatus` (player.go). -/
def GetLoopStatus (env : Env) : GoRet String :=
  getPlayerPropertyCast env "LoopStatus" ToStringE

/-- Embeds `Player.GetShuffle` (player.go). -/
def GetShuffle (env : Env) : GoRet Bool :=
  getPlayerPropertyCast env "Shuffle" ToBoolE

/-- Embeds `Player.GetVolume` (player.go). -/
def GetVolume (env : Env) : GoRet Rat :=
  getPlayerPropertyCast env "Volume" ToFloat64E

/-- Embeds `Player.GetPosition` (player.go): the Position property as int64
microseconds, scaled to a duration. -/
def GetPosition (env : Env) : GoRet Int :=
  let r := getPlayerPropertyCast env "Position" ToInt64E
  ⟨microsecondsToDuration r.val, r.err, r.calls⟩

/-- Embeds `Player.GetLength` (mpris.go): the `mpris:length` metadata entry
as int64 microseconds, scaled to a duration. -/
def GetLength (env : Env) : GoRet Int :=
  let r := getMetadataCast env "mpris:length" ToInt64E
  ⟨microsecondsToDuration r.val, r.err, r.calls⟩

/-- Embeds `Player.GetTitle` (mpris.go). -/
def GetTitle (env : Env) : GoRet String :=
  getMetadataCast env "xesam:title" ToStringE

/-- Embeds `Player.GetArtist` (mpris.go). -/
def GetArtist (env : Env) : GoRet (List String) :=
  getMetadataCast env "xesam:artist" ToStringSliceE

/-- Embeds `Player.GetTrackID` (mpris.go): the `mpris:trackid` metadata entry
cast to string, converted to a `dbus.ObjectPath` (a string type, identified
with `String`). -/
def GetTrackID (env : Env) : GoRet String :=
  let r := getMetadataCast env "mpris:trackid" ToStringE
  ⟨r.val, r.err, r.calls⟩

/-- Embeds `Player.Seek` (player.go): converts the offset to whole
microseconds and forwards it in a `Seek` method call. -/
def Seek (env : Env) (offset : Int) : GoRet Unit :=
  let micro := durationMicroseconds offset
  let c : CallRec := ⟨PlayerInterface ++ ".Seek", [.aInt micro]⟩
  ⟨(), (env.reply c.method c.args).callErr, [c]⟩

/-- Embeds `Player.SetTrackPosition` (player.go): converts the position to
whole microseconds and forwards it, with the track id, in a `SetPosition`
method call. -/
def SetTrackPosition (env : Env) (trackId : String) (position : Int) : GoRet Unit :=
  let oms := durationMicroseconds position
  let c : CallRec := ⟨PlayerInterface ++ ".SetPosition", [.aObjectPath trackId, .aInt oms]⟩
  ⟨(), (env.reply c.method c.args).callErr, [c]⟩

/-- Embeds `Player.SetPosition` (player.go): look up the current track id,
return its error if the lookup fails, otherwise forward to
`SetTrackPosition`. -/
def SetPosition (env : Env) (position : Int) : GoRet Unit :=
  let t := GetTrackID env
  match t.err with
  | some e => ⟨(), some e, t.calls⟩
  | none =>
    let s := SetTrackPosition env t.val position
    ⟨(), s.err, t.calls ++ s.calls⟩

/-- Models `strings.HasPrefix` from the Go standard library (written over the
character list because Lean's `String.startsWith` does not reduce in the
kernel). -/
def hasPrefix (s pre : String) : Bool := pre.data.isPrefixOf s.data

/-- Embeds `List` (mpris.go), named `listPlayers` here because `List` would
shadow Lean's list type: calls `ListNames` on the bus and keeps, in order,
the names prefixed with `BaseInterface`. -/
def listPlayers (env : Env) : List String × Option GoError :=
  match env.listNames with
  | (_, some e) => ([], some e)
  | (names, none) =>
    (names.foldl (fun acc name => if hasPrefix name BaseInterface then acc ++ [name] else acc)
      [], none)

/-- One event observed by the `OnSeeked` select loop: the context firing, the
signal channel closing, or a delivered signal with its body. -/
inductive SignalEvent where
  | ctxDone
  | closed
  | sig (body : List GoValue)

/-- Whether an event makes the loop return. -/
def isStopEvent : SignalEvent → Bool
  | .ctxDone => true
  | .closed => true
  | .sig _ => false

/-- Embeds the select loop of `Player.OnSeeked` (player.go) over a finite
event trace: context firing or channel closure returns (nil); a signal whose
body is not a single value is skipped; a single value is cast with
`cast.ToInt64E` and, on success, scaled to a duration and sent on the
position channel.  Yields the sent durations and whether the loop returned
within the trace. -/
def onSeekedLoop : List SignalEvent → List Int × Bool
  | [] => ([], false)
  | .ctxDone :: _ => ([], true)
  | .closed :: _ => ([], true)
  | .sig body :: rest =>
    match body with
    | [v] =>
      match ToInt64E v with
      | (val, none) =>
        let r := onSeekedLoop rest
        (microsecondsToDuration val :: r.1, r.2)
      | (_, some _) => onSeekedLoop rest
    | _ => onSeekedLoop rest

/-- Outcome of a run of `OnSeeked`: its return value, the durations sent on
the position channel, and whether the function returned within the trace. -/
structure SeekedRun where
  err : Option GoError
  delivered : List Int
  returned : Bool

/-- Embeds `Player.OnSeeked` (player.go): a failing `AddMatchSignal` is
returned at once, otherwise the select loop runs over the event trace. -/
def OnSeeked (env : Env) (events : List SignalEvent) : SeekedRun :=
  match env.addMatchSignalErr with
  | some e => ⟨some e, [], true⟩
  | none =>
    let r := onSeekedLoop events
    ⟨none, r.1, r.2⟩

/-! Concrete environments and data used to evaluate the theorems. -/

/-- A quiet bus: every call succeeds and stores an empty variant. -/
def trivEnv : Env := ⟨fun _ _ => ⟨none, .ok .gNil⟩, ([], none), none⟩

/-- A dead bus: every interaction fails with a transport error. -/
def failEnv : Env :=
  ⟨fun _ _ => ⟨some (.transport "bus unreachable"), .error (.transport "bus unreachable")⟩,
    ([], some (.transport "bus unreachable")), some (.transport "bus unreachable")⟩

/-- A bus whose every property reads as the string "Banana". -/
def bananaEnv : Env := ⟨fun _ _ => ⟨none, .ok (.gString "Banana")⟩, ([], none), none⟩

/-- A player reporting playback status "Paused" and loop status "Track". -/
def statusEnv : Env :=
  ⟨fun _ args =>
    if args = [.aString PlayerInterface, .aString "PlaybackStatus"] then
      ⟨none, .ok (.gString "Paused")⟩
    else if args = [.aString PlayerInterface, .aString "LoopStatus"] then
      ⟨none, .ok (.gString "Track")⟩
    else ⟨none, .ok .gNil⟩, ([], none), none⟩

/-- A bus whose every property reads as a string list. -/
def listPropEnv : Env := ⟨fun _ _ => ⟨none, .ok (.gStringList ["a"])⟩, ([], none), none⟩

/-- A bus exposing one mpris player name and one unrelated name. -/
def vlcBusEnv : Env :=
  ⟨fun _ _ => ⟨none, .ok .gNil⟩, (["org.mpris.MediaPlayer2.vlc", "org.other.Thing"], none),
    none⟩

/-- A player with a loaded track whose metadata names a track id. -/
def trackEnv : Env :=
  ⟨fun m _ =>
    if m = getPropertyMethod then
      ⟨none, .ok (.gDict [("mpris:trackid", .gString "/org/mpris/track/1")])⟩
    else ⟨none, .ok .gNil⟩, ([], none), none⟩

/-- An idle player: metadata is an empty map. -/
def noTrackEnv : Env := ⟨fun _ _ => ⟨none, .ok (.gDict [])⟩, ([], none), none⟩

/-- A small metadata map with a present key and a nil-valued key. -/
def sampleMeta : Metadata :=
  [("mpris:trackid", .gString "/org/t/1"), ("xesam:album", .gNil)]

/-! Helper lemmas. -/

/-- Wrapping is the identity on values that fit in int64. -/
theorem int64wrap_eq_self (x : Int) (h1 : -(2 ^ 63) ≤ x) (h2 : x < 2 ^ 63) :
    int64wrap x = x := by
  unfold int64wrap
  have h3 : 0 ≤ x + 2 ^ 63 := by linarith
  have h4 : x + 2 ^ 63 < 2 ^ 64 := by norm_num at h2 ⊢; linarith
  rw [Int.emod_eq_of_lt h3 h4]
  ring

/-- Truncating division toward zero acts as floor division on the magnitude. -/
theorem natAbs_tdiv_thousand (d : Int) : (Int.tdiv d 1000).natAbs = d.natAbs / 1000 := by
  cases d <;> simp [Int.tdiv] <;> omega

/-- The filtering loop of `listPlayers`, written with `foldl` and `append`
exactly as the Go range loop, computes `List.filter`. -/
theorem foldl_append_filter (p : String → Bool) (l acc : List String) :
    l.foldl (fun acc n => if p n then acc ++ [n] else acc) acc = acc ++ l.filter p := by
  induction l generalizing acc with
  | nil => simp
  | cons x xs ih => by_cases hx : p x <;> simp [List.filter, hx, ih]

/-- `GetProperty` always issues exactly its one `Properties.Get` call. -/
theorem GetProperty_calls (env : Env) (iface property : String) :
    (GetProperty env iface property).calls =
      [⟨getPropertyMethod, [.aString iface, .aString property]⟩] := by
  unfold GetProperty
  cases h : (env.reply getPropertyMethod [.aString iface, .aString property]).callErr with
  | some e => simp [h]
  | none =>
    cases hs : (env.reply getPropertyMethod [.aString iface, .aString property]).stored <;>
      simp [h, hs]

/-- `getPropertyCast` issues exactly the one `Properties.Get` call. -/
theorem getPropertyCast_calls {α : Type} [Inhabited α] (env : Env) (iface property : String)
    (caster : GoValue → α × Option GoError) :
    (getPropertyCast env iface property caster).calls =
      [⟨getPropertyMethod, [.aString iface, .aString property]⟩] := by
  cases hg : GetProperty env iface property with
  | mk v err calls =>
    have hcalls := GetProperty_calls env iface property
    rw [hg] at hcalls
    unfold getPropertyCast
    rw [hg]
    cases err with
    | some e => exact hcalls
    | none =>
      cases v
      case gNil => exact hcalls
      case gBool b => rcases hc : caster (.gBool b) with ⟨x, _ | e⟩ <;> simp [hc, hcalls]
      case gInt n => rcases hc : caster (.gInt n) with ⟨x, _ | e⟩ <;> simp [hc, hcalls]
      case gFloat q => rcases hc : caster (.gFloat q) with ⟨x, _ | e⟩ <;> simp [hc, hcalls]
      case gString s => rcases hc : caster (.gString s) with ⟨x, _ | e⟩ <;> simp [hc, hcalls]
      case gObjectPath p =>
        rcases hc : caster (.gObjectPath p) with ⟨x, _ | e⟩ <;> simp [hc, hcalls]
      case gStringList l =>
        rcases hc : caster (.gStringList l) with ⟨x, _ | e⟩ <;> simp [hc, hcalls]
      case gDict entries =>
        rcases hc : caster (.gDict entries) with ⟨x, _ | e⟩ <;> simp [hc, hcalls]

/-- `getMetadataCast` issues exactly the one `Properties.Get` call for the
`Metadata` property. -/
theorem getMetadataCast_calls {α : Type} [Inhabited α] (env : Env) (key : String)
    (caster : GoValue → α × Option GoError) :
    (getMetadataCast env key caster).calls =
      [⟨getPropertyMethod, [.aString PlayerInterface, .aString "Metadata"]⟩] := by
  cases hg : GetMetadata env with
  | mk m err calls =>
    have hcalls := getPropertyCast_calls env PlayerInterface "Metadata" metadataCaster
    rw [show GetMetadata env = getPropertyCast env PlayerInterface "Metadata" metadataCaster
      from rfl] at hg
    rw [hg] at hcalls
    unfold getMetadataCast GetMetadata getPlayerPropertyCast
    rw [hg]
    cases err with
    | some e => exact hcalls
    | none =>
      rcases hget : Metadata.Get m key with ⟨val, _ | e⟩
      · rcases hc : caster val with ⟨x, _ | e⟩ <;> simp [hget, hc, hcalls]
      · simp [hget, hcalls]

/-- `GetTrackID` issues exactly the one metadata `Properties.Get` call. -/
theorem GetTrackID_calls (env : Env) :
    (GetTrackID env).calls =
      [⟨getPropertyMethod, [.aString PlayerInterface, .aString "Metadata"]⟩] := by
  unfold GetTrackID
  simpa using getMetadataCast_calls env "mpris:trackid" ToStringE

/-! Claim theorems. -/

/-- C5: when the bus name-listing call succeeds, `listPlayers` returns
exactly the sub-list of names prefixed with `BaseInterface`, in their
original order, and no error. -/
theorem listPlayers_keeps_matching_names (env : Env) (names : List String)
    (h : env.listNames = (names, none)) :
    listPlayers env = (names.filter (fun n => hasPrefix n BaseInterface), none) := by
  unfold listPlayers
  rw [h]
  simpa using congrArg (fun l => (l, (none : Option GoError)))
    (foldl_append_filter (fun n => hasPrefix n BaseInterface) names [])

/-- C5 witness: on a bus exposing an mpris name and an unrelated name,
exactly the mpris name is returned. -/
theorem listPlayers_keeps_matching_names_witness :
    listPlayers vlcBusEnv = (["org.mpris.MediaPlayer2.vlc"], none) := by
  rw [listPlayers_keeps_matching_names vlcBusEnv ["org.mpris.MediaPlayer2.vlc", "org.other.Thing"] rfl]
  rfl

/-- C6: `Seek` issues exactly one `Seek` method call whose payload is the
offset converted to whole microseconds (truncating division), for every
signed offset, with no clamping or sign restriction; its error is the
transport error of that very call. -/
theorem seek_forwards_microseconds (env : Env) (offset : Int) :
    (Seek env offset).calls =
      [⟨PlayerInterface ++ ".Seek", [.aInt (durationMicroseconds offset)]⟩] ∧
    (Seek env offset).err =
      (env.reply (PlayerInterface ++ ".Seek") [.aInt (durationMicroseconds offset)]).callErr :=
  ⟨rfl, rfl⟩

/-- C10: `Seek` and `SetTrackPosition` forward the duration as truncated
whole microseconds: the payload magnitude is the floor of the magnitude in
microseconds, and any nonzero offset smaller than one microsecond becomes a
zero payload. -/
theorem duration_truncates_toward_zero (env : Env) (d : Int) (trackId : String) :
    (Seek env d).calls =
      [⟨PlayerInterface ++ ".Seek", [.aInt (durationMicroseconds d)]⟩] ∧
    (SetTrackPosition env trackId d).calls =
      [⟨PlayerInterface ++ ".SetPosition",
        [.aObjectPath trackId, .aInt (durationMicroseconds d)]⟩] ∧
    (durationMicroseconds d).natAbs = d.natAbs / 1000 ∧
    (d ≠ 0 → d.natAbs < 1000 → durationMicroseconds d = 0) := by
  refine ⟨rfl, rfl, natAbs_tdiv_thousand d, fun hne hlt => ?_⟩
  have h0 : (durationMicroseconds d).natAbs = 0 := by
    rw [durationMicroseconds, natAbs_tdiv_thousand d, Nat.div_eq_of_lt hlt]
  exact Int.natAbs_eq_zero.mp h0

/-- C10 witness: a negative sub-microsecond offset is sent as payload zero
(floor division would have sent -1). -/
theorem duration_truncates_toward_zero_witness :
    (-999 : Int) ≠ 0 ∧ ((-999 : Int)).natAbs < 1000 ∧ durationMicroseconds (-999) = 0 :=
  ⟨by decide, by decide,
    (duration_truncates_toward_zero trivEnv (-999) "x").2.2.2 (by decide) (by decide)⟩

/-- C7: `Metadata.Get` fails exactly when the key is absent or its variant
carries a nil value, and otherwise returns the carried value with no
error. -/
theorem metadata_get_missing_or_nil (m : Metadata) (key : String) :
    ((Metadata.Get m key).2.isSome ↔ m.lookup key = none ∨ m.lookup key = some .gNil) ∧
    (∀ v, m.lookup key = some v → v ≠ .gNil → Metadata.Get m key = (v, none)) := by
  constructor
  · unfold Metadata.Get
    cases h : m.lookup key with
    | none => simp
    | some v => cases v <;> simp
  · intro v hv hne
    unfold Metadata.Get
    rw [hv]
    cases v <;> simp_all

/-- C7 witness: on a concrete map, a present key yields its value, a
nil-valued key fails, and an absent key fails. -/
theorem metadata_get_missing_or_nil_witness :
    sampleMeta.lookup "mpris:trackid" = some (.gString "/org/t/1") ∧
    Metadata.Get sampleMeta "mpris:trackid" = (.gString "/org/t/1", none) ∧
    (Metadata.Get sampleMeta "xesam:album").2.isSome ∧
    (Metadata.Get sampleMeta "other").2.isSome := by
  refine ⟨rfl, ?_, ?_, ?_⟩
  · exact (metadata_get_missing_or_nil sampleMeta "mpris:trackid").2 _ rfl
      (fun h => GoValue.noConfusion h)
  · exact (metadata_get_missing_or_nil sampleMeta "xesam:album").1.mpr (Or.inr rfl)
  · exact (metadata_get_missing_or_nil sampleMeta "other").1.mpr (Or.inl rfl)

/-- C8: on the generic get-and-cast primitive, a successful remote get whose
variant carries a nil value fails with the nil-value error, and a carried
value rejected by the caster fails with a cast error that embeds the
offending raw value; in both cases the zero value is returned alongside the
error. -/
theorem getPropertyCast_error_paths {α : Type} [Inhabited α] (env : Env)
    (iface property : String) (caster : GoValue → α × Option GoError) :
    ((GetProperty env iface property).err = none →
      (GetProperty env iface property).val = .gNil →
      getPropertyCast env iface property caster =
        ⟨default, some (.nilValue iface property), (GetProperty env iface property).calls⟩) ∧
    (∀ raw x e, (GetProperty env iface property).err = none →
      (GetProperty env iface property).val = raw → raw ≠ .gNil → caster raw = (x, some e) →
      getPropertyCast env iface property caster =
        ⟨default, some (.castFailed iface property raw e),
          (GetProperty env iface property).calls⟩) := by
  cases hg : GetProperty env iface property with
  | mk v err calls =>
    constructor
    · intro herr hval
      dsimp only at herr hval
      subst herr
      subst hval
      unfold getPropertyCast
      rw [hg]
    · intro raw x e herr hval hne hc
      dsimp only at herr hval
      subst herr
      subst hval
      unfold getPropertyCast
      rw [hg]
      cases v
      case gNil => exact absurd rfl hne
      all_goals simp [hc]

/-- C8 witness: a nil `Rate` variant yields the nil-value error with zero
value, and a string-list `Rate` variant yields a cast error embedding the
offending list, again with zero value. -/
theorem getPropertyCast_error_paths_witness :
    getPropertyCast trivEnv PlayerInterface "Rate" ToFloat64E =
      ⟨0, some (.nilValue PlayerInterface "Rate"),
        [⟨getPropertyMethod, [.aString PlayerInterface, .aString "Rate"]⟩]⟩ ∧
    getPropertyCast listPropEnv PlayerInterface "Rate" ToFloat64E =
      ⟨0, some (.castFailed PlayerInterface "Rate" (.gStringList ["a"])
          (.unableToCast (.gStringList ["a"]) "float64")),
        [⟨getPropertyMethod, [.aString PlayerInterface, .aString "Rate"]⟩]⟩ := by
  constructor
  · rw [(getPropertyCast_error_paths trivEnv PlayerInterface "Rate" ToFloat64E).1 rfl rfl]
    rfl
  · rw [(getPropertyCast_error_paths listPropEnv PlayerInterface "Rate" ToFloat64E).2
      (.gStringList ["a"]) 0 (.unableToCast (.gStringList ["a"]) "float64") rfl rfl
      (fun h => GoValue.noConfusion h) rfl]
    rfl

/-- Every error path of `getPropertyCast` returns the zero value. -/
theorem getPropertyCast_default_on_error {α : Type} [Inhabited α] (env : Env)
    (iface property : String) (caster : GoValue → α × Option GoError)
    (h : (getPropertyCast env iface property caster).err.isSome = true) :
    (getPropertyCast env iface property caster).val = default := by
  cases hg : GetProperty env iface property with
  | mk v err calls =>
    unfold getPropertyCast at h ⊢
    rw [hg] at h ⊢
    cases err with
    | some e => rfl
    | none =>
      cases v
      case gNil => rfl
      case gBool b => rcases hc : caster (.gBool b) with ⟨x, _ | e⟩ <;> simp [hc] at h ⊢
      case gInt n => rcases hc : caster (.gInt n) with ⟨x, _ | e⟩ <;> simp [hc] at h ⊢
      case gFloat q => rcases hc : caster (.gFloat q) with ⟨x, _ | e⟩ <;> simp [hc] at h ⊢
      case gString s => rcases hc : caster (.gString s) with ⟨x, _ | e⟩ <;> simp [hc] at h ⊢
      case gObjectPath p =>
        rcases hc : caster (.gObjectPath p) with ⟨x, _ | e⟩ <;> simp [hc] at h ⊢
      case gStringList l =>
        rcases hc : caster (.gStringList l) with ⟨x, _ | e⟩ <;> simp [hc] at h ⊢
      case gDict entries =>
        rcases hc : caster (.gDict entries) with ⟨x, _ | e⟩ <;> simp [hc] at h ⊢

/-- Every error path of `getMetadataCast` returns the zero value, provided
the caster itself returns the zero value alongside its errors (as the cast
library does). -/
theorem getMetadataCast_default_on_error {α : Type} [Inhabited α] (env : Env) (key : String)
    (caster : GoValue → α × Option GoError)
    (hcz : ∀ v x e, caster v = (x, some e) → x = default)
    (h : (getMetadataCast env key caster).err.isSome = true) :
    (getMetadataCast env key caster).val = default := by
  cases hg : GetMetadata env with
  | mk m err calls =>
    unfold getMetadataCast at h ⊢
    rw [hg] at h ⊢
    cases err with
    | some e => rfl
    | none =>
      rcases hget : Metadata.Get m key with ⟨val, oe⟩
      cases oe with
      | some e => simp [hget]
      | none =>
        rcases hc : caster val with ⟨x, oe2⟩
        cases oe2 with
        | some e =>
          have hx := hcz val x e hc
          simp [hget, hc, hx]
        | none => simp [hget, hc] at h

/-- `cast.ToStringE` returns the empty string alongside every error. -/
theorem ToStringE_zero_on_error (v : GoValue) (x : String) (e : GoError)
    (h : ToStringE v = (x, some e)) : x = "" := by
  cases v <;> simp [ToStringE] at h <;> tauto

/-- `cast.ToInt64E` returns zero alongside every error. -/
theorem ToInt64E_zero_on_error (v : GoValue) (x : Int) (e : GoError)
    (h : ToInt64E v = (x, some e)) : x = 0 := by
  cases v <;> simp [ToInt64E] at h <;> try tauto
  case gString s =>
    rcases hp : s.toInt? with _ | n <;> rw [hp] at h <;> simp at h
    tauto

/-- `cast.ToStringSliceE` returns the empty list alongside every error. -/
theorem ToStringSliceE_zero_on_error (v : GoValue) (x : List String) (e : GoError)
    (h : ToStringSliceE v = (x, some e)) : x = [] := by
  cases v <;> simp [ToStringSliceE, ToStringE] at h <;> tauto

/-- C9: whenever a typed getter fails, the value it returns alongside the
error is the zero value of its result type: empty string for the status,
title and track-id getters, false for shuffle, zero for volume, the zero
duration for position and length, the empty list for artists, the empty map
for metadata. -/
theorem getters_zero_value_on_error (env : Env) :
    ((GetPlaybackStatus env).err.isSome = true → (GetPlaybackStatus env).val = "") ∧
    ((GetLoopStatus env).err.isSome = true → (GetLoopStatus env).val = "") ∧
    ((GetShuffle env).err.isSome = true → (GetShuffle env).val = false) ∧
    ((GetVolume env).err.isSome = true → (GetVolume env).val = 0) ∧
    ((GetPosition env).err.isSome = true → (GetPosition env).val = 0) ∧
    ((GetLength env).err.isSome = true → (GetLength env).val = 0) ∧
    ((GetTitle env).err.isSome = true → (GetTitle env).val = "") ∧
    ((GetTrackID env).err.isSome = true → (GetTrackID env).val = "") ∧
    ((GetArtist env).err.isSome = true → (GetArtist env).val = []) ∧
    ((GetMetadata env).err.isSome = true → (GetMetadata env).val = []) := by
  refine ⟨?_, ?_, ?_, ?_, ?_, ?_, ?_, ?_, ?_, ?_⟩
  · exact fun h => getPropertyCast_default_on_error env PlayerInterface "PlaybackStatus"
      ToStringE h
  · exact fun h => getPropertyCast_default_on_error env PlayerInterface "LoopStatus"
      ToStringE h
  · exact fun h => getPropertyCast_default_on_error env PlayerInterface "Shuffle" ToBoolE h
  · exact fun h => getPropertyCast_default_on_error env PlayerInterface "Volume" ToFloat64E h
  · intro h
    have hz : (getPropertyCast env PlayerInterface "Position" ToInt64E).val = 0 :=
      getPropertyCast_default_on_error env PlayerInterface "Position" ToInt64E h
    show microsecondsToDuration (getPropertyCast env PlayerInterface "Position" ToInt64E).val
      = 0
    rw [hz]
    decide
  · intro h
    have hz : (getMetadataCast env "mpris:length" ToInt64E).val = 0 :=
      getMetadataCast_default_on_error env "mpris:length" ToInt64E ToInt64E_zero_on_error h
    show microsecondsToDuration (getMetadataCast env "mpris:length" ToInt64E).val = 0
    rw [hz]
    decide
  · exact fun h => getMetadataCast_default_on_error env "xesam:title" ToStringE
      ToStringE_zero_on_error h
  · exact fun h => getMetadataCast_default_on_error env "mpris:trackid" ToStringE
      ToStringE_zero_on_error h
  · exact fun h => getMetadataCast_default_on_error env "xesam:artist" ToStringSliceE
      ToStringSliceE_zero_on_error h
  · exact fun h => getPropertyCast_default_on_error env PlayerInterface "Metadata"
      metadataCaster h

/-- C9 witness: on a dead bus every getter fails and returns its zero
value. -/
theorem getters_zero_value_on_error_witness :
    (GetPlaybackStatus failEnv).val = "" ∧ (GetShuffle failEnv).val = false ∧
    (GetVolume failEnv).val = 0 ∧ (GetPosition failEnv).val = 0 ∧
    (GetLength failEnv).val = 0 ∧ (GetTitle failEnv).val = "" ∧
    (GetTrackID failEnv).val = "" ∧ (GetArtist failEnv).val = [] ∧
    (GetMetadata failEnv).val = [] := by
  have h := getters_zero_value_on_error failEnv
  exact ⟨h.1 rfl, h.2.2.1 rfl, h.2.2.2.1 rfl, h.2.2.2.2.1 rfl, h.2.2.2.2.2.1 rfl,
    h.2.2.2.2.2.2.1 rfl, h.2.2.2.2.2.2.2.1 rfl, h.2.2.2.2.2.2.2.2.1 rfl,
    h.2.2.2.2.2.2.2.2.2 rfl⟩

/-- A successful property read: a reply with no call error and a stored
variant determines the result of `GetProperty`. -/
theorem GetProperty_ok (env : Env) (iface property : String) (v : GoValue)
    (h : env.reply getPropertyMethod [.aString iface, .aString property] = ⟨none, .ok v⟩) :
    GetProperty env iface property =
      ⟨v, none, [⟨getPropertyMethod, [.aString iface, .aString property]⟩]⟩ := by
  unfold GetProperty
  have h1 : (env.reply getPropertyMethod [.aString iface, .aString property]).callErr =
      none := by rw [h]
  have h2 : (env.reply getPropertyMethod [.aString iface, .aString property]).stored =
      .ok v := by rw [h]
  simp [h1, h2]

/-- C1: `SetPosition` returns the track-id lookup error untouched when the
lookup fails, and in that case none of its remote calls is the player
`SetPosition` method call; when the lookup succeeds, the `SetPosition`
method call scoped to the found track id, carrying the position in whole
microseconds, is issued. -/
theorem setPosition_guarded_by_trackID (env : Env) (position : Int) :
    (∀ e, (GetTrackID env).err = some e →
      (SetPosition env position).err = some e ∧
      ∀ c ∈ (SetPosition env position).calls, c.method ≠ PlayerInterface ++ ".SetPosition") ∧
    ((GetTrackID env).err = none →
      (⟨PlayerInterface ++ ".SetPosition",
        [.aObjectPath (GetTrackID env).val, .aInt (durationMicroseconds position)]⟩ : CallRec)
        ∈ (SetPosition env position).calls) := by
  cases hg : GetTrackID env with
  | mk tid err calls =>
    have hcalls := GetTrackID_calls env
    rw [hg] at hcalls
    dsimp only at hcalls
    constructor
    · intro e he
      dsimp only at he
      subst he
      constructor
      · unfold SetPosition
        rw [hg]
      · intro c hc
        unfold SetPosition at hc
        rw [hg] at hc
        dsimp only at hc
        rw [hcalls] at hc
        simp only [List.mem_singleton] at hc
        subst hc
        show getPropertyMethod ≠ PlayerInterface ++ ".SetPosition"
        decide
    · intro he
      dsimp only at he
      subst he
      unfold SetPosition
      rw [hg]
      dsimp only
      simp [SetTrackPosition]

/-- C1 witness: on an idle player the lookup error is returned and no
`SetPosition` method call is issued; on a player with a loaded track the
scoped call is issued (with the 5 nanosecond position truncated to a zero
microsecond payload). -/
theorem setPosition_guarded_by_trackID_witness :
    (GetTrackID noTrackEnv).err = some (.metadataMissing "mpris:trackid") ∧
    (SetPosition noTrackEnv 5).err = some (.metadataMissing "mpris:trackid") ∧
    (∀ c ∈ (SetPosition noTrackEnv 5).calls,
      c.method ≠ PlayerInterface ++ ".SetPosition") ∧
    (GetTrackID trackEnv).err = none ∧
    (⟨PlayerInterface ++ ".SetPosition", [.aObjectPath "/org/mpris/track/1", .aInt 0]⟩ :
      CallRec) ∈ (SetPosition trackEnv 5).calls := by
  refine ⟨rfl, ?_, ?_, rfl, ?_⟩
  · exact ((setPosition_guarded_by_trackID noTrackEnv 5).1 _ rfl).1
  · exact ((setPosition_guarded_by_trackID noTrackEnv 5).1 _ rfl).2
  · exact (setPosition_guarded_by_trackID trackEnv 5).2 rfl

/-- The select loop returns precisely when the trace contains a context-done
or channel-closed event. -/
theorem onSeekedLoop_returned (events : List SignalEvent) :
    (onSeekedLoop events).2 = events.any isStopEvent := by
  induction events with
  | nil => rfl
  | cons ev rest ih =>
    cases ev with
    | ctxDone => simp [onSeekedLoop, isStopEvent]
    | closed => simp [onSeekedLoop, isStopEvent]
    | sig body =>
      have hstep : (onSeekedLoop (.sig body :: rest)).2 = (onSeekedLoop rest).2 := by
        rcases body with _ | ⟨v, _ | ⟨w, t⟩⟩
        · rfl
        · simp only [onSeekedLoop]
          rcases hc : ToInt64E v with ⟨x, _ | e⟩ <;> simp [hc]
        · rfl
      rw [hstep, ih]
      simp [isStopEvent]

/-- C3: once the subscription succeeds, `OnSeeked` returns (with a nil
error) exactly when the trace contains a cancellation or channel-closure
event; no malformed event, however many, makes it return. -/
theorem onSeeked_termination (env : Env) (events : List SignalEvent)
    (h : env.addMatchSignalErr = none) :
    ((OnSeeked env events).returned = true ↔ ∃ e ∈ events, isStopEvent e = true) ∧
    (OnSeeked env events).err = none := by
  unfold OnSeeked
  rw [h]
  constructor
  · show (onSeekedLoop events).2 = true ↔ _
    rw [onSeekedLoop_returned]
    simp
  · rfl

/-- C3 witness: a malformed event followed by a context cancellation makes
the loop return nil, while a trace of only malformed events leaves it
running. -/
theorem onSeeked_termination_witness :
    (OnSeeked trivEnv [.sig [.gStringList []], .ctxDone]).returned = true ∧
    (OnSeeked trivEnv [.sig [.gStringList []], .ctxDone]).err = none ∧
    (OnSeeked trivEnv [.sig [.gStringList []], .sig []]).returned = false := by
  refine ⟨?_, (onSeeked_termination trivEnv [.sig [.gStringList []], .ctxDone] rfl).2, ?_⟩
  · exact (onSeeked_termination trivEnv [.sig [.gStringList []], .ctxDone] rfl).1.mpr
      ⟨.ctxDone, by simp, rfl⟩
  · have h2 := (onSeeked_termination trivEnv [.sig [.gStringList []], .sig []] rfl).1
    simp [isStopEvent] at h2
    exact h2

/-- C2 counterexample: the single int64 payload 2^62 decodes successfully,
yet the duration of 2^62 microseconds (2^62 · 1000 nanoseconds) is not what
is delivered: the int64 multiplication wraps and the loop delivers the zero
duration. -/
theorem onSeeked_unwrapped_delivery_false :
    (ToInt64E (.gInt 4611686018427387904)).2 = none ∧
    (onSeekedLoop [.sig [.gInt 4611686018427387904]]).1 = [0] ∧
    (4611686018427387904 : Int) * 1000 ∉ (onSeekedLoop [.sig [.gInt 4611686018427387904]]).1
    := by
  refine ⟨rfl, ?_, ?_⟩ <;> decide

/-- C2 (amended): a signal whose body is a single value that `cast.ToInt64E`
accepts as a microsecond count n delivers the duration
`Duration(n) * Microsecond` — that is n·1000 nanoseconds computed with int64
wraparound, which equals n microseconds exactly whenever n·1000 fits in
int64; a body of any other arity delivers nothing, and a single value the
cast rejects delivers nothing, the loop continuing in all cases. -/
theorem onSeeked_step_delivery (env : Env) (body : List GoValue) (rest : List SignalEvent)
    (h : env.addMatchSignalErr = none) :
    (∀ v, body = [v] → (ToInt64E v).2 = none →
      (OnSeeked env (.sig body :: rest)).delivered =
        microsecondsToDuration (ToInt64E v).1 :: (OnSeeked env rest).delivered ∧
      (-(2 ^ 63) ≤ (ToInt64E v).1 * 1000 → (ToInt64E v).1 * 1000 < 2 ^ 63 →
        microsecondsToDuration (ToInt64E v).1 = (ToInt64E v).1 * 1000)) ∧
    (body.length ≠ 1 → OnSeeked env (.sig body :: rest) = OnSeeked env rest) ∧
    (∀ v e, body = [v] → (ToInt64E v).2 = some e →
      OnSeeked env (.sig body :: rest) = OnSeeked env rest) := by
  refine ⟨?_, ?_, ?_⟩
  · intro v hb hcast
    subst hb
    refine ⟨?_, fun h1 h2 => int64wrap_eq_self _ h1 h2⟩
    unfold OnSeeked
    rw [h]
    show (onSeekedLoop (.sig [v] :: rest)).1 = _ :: (onSeekedLoop rest).1
    simp only [onSeekedLoop]
    rcases hc : ToInt64E v with ⟨x, _ | e⟩
    · simp [hc]
    · rw [hc] at hcast
      simp at hcast
  · intro hlen
    have hstep : onSeekedLoop (.sig body :: rest) = onSeekedLoop rest := by
      rcases body with _ | ⟨v, _ | ⟨w, t⟩⟩
      · rfl
      · simp at hlen
      · rfl
    unfold OnSeeked
    rw [h, hstep]
  · intro v e hb hcast
    subst hb
    have hstep : onSeekedLoop (.sig [v] :: rest) = onSeekedLoop rest := by
      simp only [onSeekedLoop]
      rcases hc : ToInt64E v with ⟨x, _ | e2⟩
      · rw [hc] at hcast
        simp at hcast
      · simp [hc]
    unfold OnSeeked
    rw [h, hstep]

/-- C2 witness: a single integer payload of 5,000,000 microseconds delivers
5 seconds (5·10^9 nanoseconds); a zero-payload event and a two-payload event
deliver nothing. -/
theorem onSeeked_step_delivery_witness :
    (OnSeeked trivEnv [.sig [.gInt 5000000]]).delivered = [5000000000] ∧
    (OnSeeked trivEnv [.sig [], .sig [.gInt 1, .gInt 2]]).delivered = [] := by
  constructor
  · have hd := (onSeeked_step_delivery trivEnv [.gInt 5000000] [] rfl).1 (.gInt 5000000)
      rfl rfl
    rw [hd.1, hd.2 (by decide) (by decide)]
    decide
  · have h1 := (onSeeked_step_delivery trivEnv [] [.sig [.gInt 1, .gInt 2]] rfl).2.1
      (by decide)
    have h2 := (onSeeked_step_delivery trivEnv [.gInt 1, .gInt 2] [] rfl).2.1 (by decide)
    rw [h1, h2]
    rfl

/-- C4 counterexample: a player reporting the string "Banana" makes both
status getters succeed with values outside the documented three-element
sets: the code does not enforce the enumerations. -/
theorem status_enum_not_enforced :
    (GetPlaybackStatus bananaEnv).err = none ∧
    (GetPlaybackStatus bananaEnv).val ∉ (["Playing", "Paused", "Stopped"] : List String) ∧
    (GetLoopStatus bananaEnv).err = none ∧
    (GetLoopStatus bananaEnv).val ∉ (["None", "Track", "Playlist"] : List String) := by
  refine ⟨rfl, ?_, rfl, ?_⟩
  · have hv : (GetPlaybackStatus bananaEnv).val = "Banana" := rfl
    rw [hv]
    decide
  · have hv : (GetLoopStatus bananaEnv).val = "Banana" := rfl
    rw [hv]
    decide

/-- C4 (amended): a successful status getter returns exactly the string the
remote property carries, so its result lies in the documented set
{"Playing", "Paused", "Stopped"} (resp. {"None", "Track", "Playlist"})
precisely when the player supplies such a string; the sets are mirrored from
the protocol, not enforced by the code. -/
theorem status_passthrough (env : Env) (s t : String) :
    (env.reply getPropertyMethod [.aString PlayerInterface, .aString "PlaybackStatus"] =
        ⟨none, .ok (.gString s)⟩ →
      GetPlaybackStatus env =
        ⟨s, none,
          [⟨getPropertyMethod, [.aString PlayerInterface, .aString "PlaybackStatus"]⟩]⟩ ∧
      (s ∈ (["Playing", "Paused", "Stopped"] : List String) →
        (GetPlaybackStatus env).val ∈ (["Playing", "Paused", "Stopped"] : List String))) ∧
    (env.reply getPropertyMethod [.aString PlayerInterface, .aString "LoopStatus"] =
        ⟨none, .ok (.gString t)⟩ →
      GetLoopStatus env =
        ⟨t, none,
          [⟨getPropertyMethod, [.aString PlayerInterface, .aString "LoopStatus"]⟩]⟩ ∧
      (t ∈ (["None", "Track", "Playlist"] : List String) →
        (GetLoopStatus env).val ∈ (["None", "Track", "Playlist"] : List String))) := by
  constructor
  · intro hrep
    have heq : GetPlaybackStatus env =
        ⟨s, none,
          [⟨getPropertyMethod, [.aString PlayerInterface, .aString "PlaybackStatus"]⟩]⟩ := by
      unfold GetPlaybackStatus getPlayerPropertyCast getPropertyCast
      rw [GetProperty_ok env PlayerInterface "PlaybackStatus" (.gString s) hrep]
      rfl
    exact ⟨heq, fun hs => by rw [heq]; exact hs⟩
  · intro hrep
    have heq : GetLoopStatus env =
        ⟨t, none,
          [⟨getPropertyMethod, [.aString PlayerInterface, .aString "LoopStatus"]⟩]⟩ := by
      unfold GetLoopStatus getPlayerPropertyCast getPropertyCast
      rw [GetProperty_ok env PlayerInterface "LoopStatus" (.gString t) hrep]
      rfl
    exact ⟨heq, fun ht => by rw [heq]; exact ht⟩

/-- C4 witness: a player reporting "Paused" and "Track" yields successful
getters whose results lie in the documented sets. -/
theorem status_passthrough_witness :
    GetPlaybackStatus statusEnv =
      ⟨"Paused", none,
        [⟨getPropertyMethod, [.aString PlayerInterface, .aString "PlaybackStatus"]⟩]⟩ ∧
    (GetPlaybackStatus statusEnv).val ∈ (["Playing", "Paused", "Stopped"] : List String) ∧
    GetLoopStatus statusEnv =
      ⟨"Track", none,
        [⟨getPropertyMethod, [.aString PlayerInterface, .aString "LoopStatus"]⟩]⟩ ∧
    (GetLoopStatus statusEnv).val ∈ (["None", "Track", "Playlist"] : List String) := by
  have hp := (status_passthrough statusEnv "Paused" "Track").1 rfl
  have hl := (status_passthrough statusEnv "Paused" "Track").2 rfl
  exact ⟨hp.1, hp.2 (by decide), hl.1, hl.2 (by decide)⟩

end Mpris
